import Mathlib

/-!
Verification of the doodle-chat-frontend data-synchronization core.

The definitions below are a shallow embedding of the TypeScript sources:
`src/types/message.ts`, `src/hooks/useChatMessages.ts`, `src/api/api-error.ts`,
`src/api/api-client.ts` and `src/config/env.ts`.  JavaScript machine values are
modelled as `Nat`/`Int`/`String`; the insertion-ordered `Map` is modelled as an
association list with in-place replacement; the stable ascending
`Array.prototype.sort` is modelled by a stable insertion sort; fallible
operations return `Option`/`Except`.
-/

namespace DoodleChat

/-- Wire message, from `src/types/message.ts` (`interface Message`). -/
structure Message where
  _id : String
  message : String
  author : String
  createdAt : String
deriving DecidableEq, Repr

/-- Display message, from `src/types/message.ts` (`interface ChatMessage extends Message`):
the wire message plus the pre-parsed numeric timestamp `createdAtMs`. -/
structure ChatMessage extends Message where
  createdAtMs : Int
deriving DecidableEq, Repr

/-- Async lifecycle status, from `src/types/hooks` (`type AsyncStatus`). -/
inductive AsyncStatus where
  | idle
  | loading
  | success
  | error
deriving DecidableEq, Repr

/-- A field-level validation error entry, from `src/types/api.ts`. -/
structure FieldError where
  field : String
  message : String
deriving DecidableEq, Repr

/-- The `message` field of `ApiErrorResponse` in `src/types/api.ts`:
either a plain string or a list of field-level validation errors. -/
inductive ErrorMessageBody where
  | str (s : String)
  | fields (l : List FieldError)
deriving DecidableEq, Repr

/-- Error envelope returned by the backend, from `src/types/api.ts`
(`interface ApiErrorResponse`). -/
structure ApiErrorResponse where
  message : ErrorMessageBody
  statusCode : Nat
  error : Option String := none
deriving DecidableEq, Repr

/-- Typed API error, from `src/api/api-error.ts` (`class ApiError`).
Only the data fields are modelled; `name` is the constant string `ApiError`. -/
structure ApiError where
  message : String
  statusCode : Nat
  response : Option ApiErrorResponse
  endpoint : Option String
deriving DecidableEq, Repr

/-! ## Platform timestamp parsing

`normalizeMessage` calls `new Date(message.createdAt).getTime()`.  `Date` is a
platform (ECMAScript) facility, not code of this repository, so it is modelled
here for the UTC (`Z`-suffixed) ISO-8601 timestamp format that the backend and
every spec example use, for years from 1970 on.  A string outside this format
parses to `NaN` in the source (an open question the spec explicitly leaves
unresolved); the model maps it to `0`, and no claim touches that case. -/

/-- Numeric value of a decimal digit character, `none` when not a digit. -/
def digitVal (c : Char) : Option Nat :=
  if c.isDigit then some (c.toNat - 48) else none

/-- Two-digit decimal number from two characters. -/
def digits2 (a b : Char) : Option Nat := do
  pure ((← digitVal a) * 10 + (← digitVal b))

/-- Three-digit decimal number from three characters. -/
def digits3 (a b c : Char) : Option Nat := do
  pure ((← digitVal a) * 100 + (← digitVal b) * 10 + (← digitVal c))

/-- Four-digit decimal number from four characters. -/
def digits4 (a b c d : Char) : Option Nat := do
  pure ((← digitVal a) * 1000 + (← digitVal b) * 100 + (← digitVal c) * 10 + (← digitVal d))

/-- Is `y` a Gregorian leap year? -/
def isLeapYear (y : Nat) : Bool :=
  y % 4 == 0 && (y % 100 != 0 || y % 400 == 0)

/-- Number of leap years `z` with `1 ≤ z < y`. -/
def leapYearsBefore (y : Nat) : Nat :=
  (y - 1) / 4 - (y - 1) / 100 + (y - 1) / 400

/-- Cumulative day count before month `m` (1-indexed) in a year. -/
def daysBeforeMonth (leap : Bool) (m : Nat) : Nat :=
  let base := [0, 31, 59, 90, 120, 151, 181, 212, 243, 273, 304, 334].getD (m - 1) 0
  if leap && decide (2 < m) then base + 1 else base

/-- Days since 1970-01-01 of the civil date `y-m-d` (for `y ≥ 1970`). -/
def epochDays (y m d : Nat) : Nat :=
  365 * (y - 1970) + (leapYearsBefore y - leapYearsBefore 1970)
    + daysBeforeMonth (isLeapYear y) m + (d - 1)

/-- Epoch milliseconds of a UTC date-time given by numeric fields,
`none` when a field is out of range. -/
def isoFieldsToMs (y mo d h mi s ms : Nat) : Option Int :=
  if 1970 ≤ y ∧ 1 ≤ mo ∧ mo ≤ 12 ∧ 1 ≤ d ∧ d ≤ 31 ∧ h ≤ 23 ∧ mi ≤ 59 ∧ s ≤ 59 then
    some (((((epochDays y mo d) * 86400 + h * 3600 + mi * 60 + s) * 1000 + ms : Nat) : Int))
  else none

/-- Parse of a `YYYY-MM-DDTHH:MM:SSZ` or `YYYY-MM-DDTHH:MM:SS.mmmZ`
character sequence into epoch milliseconds. -/
def parseIsoZulu : List Char → Option Int
  | [y1, y2, y3, y4, ca, o1, o2, cb, d1, d2, ct, h1, h2, cc, i1, i2, cd, s1, s2, cz] =>
    if ca = '-' ∧ cb = '-' ∧ ct = 'T' ∧ cc = ':' ∧ cd = ':' ∧ cz = 'Z' then do
      isoFieldsToMs (← digits4 y1 y2 y3 y4) (← digits2 o1 o2) (← digits2 d1 d2)
        (← digits2 h1 h2) (← digits2 i1 i2) (← digits2 s1 s2) 0
    else none
  | [y1, y2, y3, y4, ca, o1, o2, cb, d1, d2, ct, h1, h2, cc, i1, i2, cd, s1, s2, cp,
     f1, f2, f3, cz] =>
    if ca = '-' ∧ cb = '-' ∧ ct = 'T' ∧ cc = ':' ∧ cd = ':' ∧ cp = '.' ∧ cz = 'Z' then do
      isoFieldsToMs (← digits4 y1 y2 y3 y4) (← digits2 o1 o2) (← digits2 d1 d2)
        (← digits2 h1 h2) (← digits2 i1 i2) (← digits2 s1 s2) (← digits3 f1 f2 f3)
    else none
  | _ => none

/-- Model of the platform `new Date(s).getTime()` call on ISO timestamp
strings (see the module comment above on its domain). -/
def jsDateParseMs (s : String) : Int :=
  (parseIsoZulu s.data).getD 0

/-- `normalizeMessage`, from `src/hooks/useChatMessages.ts` lines 33-38:
spreads the wire message and adds `createdAtMs` parsed once from `createdAt`. -/
def normalizeMessage (m : Message) : ChatMessage :=
  { m with createdAtMs := jsDateParseMs m.createdAt }

/-! ## The insertion-ordered string-keyed map

`mergeMessagesById` builds a JavaScript `Map<string, ChatMessage>`.  A `Map`
iterates its entries in insertion order, and `set` on a key that is already
present replaces the value in place without moving the entry.  The map is
modelled as an association list with exactly those two behaviours. -/

/-- The keys of the association list, in insertion order. -/
def mapKeys (m : List (String × ChatMessage)) : List String :=
  m.map Prod.fst

/-- `Map.prototype.set`: replace the value in place when the key is present,
append a new entry otherwise. -/
def mapSet (m : List (String × ChatMessage)) (k : String) (v : ChatMessage) :
    List (String × ChatMessage) :=
  if k ∈ mapKeys m then
    m.map (fun p => if p.1 = k then (k, v) else p)
  else m ++ [(k, v)]

/-- `Map.prototype.get` as used implicitly: the value stored at key `k`. -/
def mapLookup (m : List (String × ChatMessage)) (k : String) : Option ChatMessage :=
  (m.find? (fun p => p.1 = k)).map Prod.snd

/-- One `for (const message of l) map.set(message._id, message)` loop of
`mergeMessagesById` (`src/hooks/useChatMessages.ts` lines 50-56). -/
def insertAll (m : List (String × ChatMessage)) (l : List ChatMessage) :
    List (String × ChatMessage) :=
  l.foldl (fun acc x => mapSet acc x._id x) m

/-- The map built by `mergeMessagesById` from `existing` then `incoming`. -/
def messageMapOf (existing incoming : List ChatMessage) :
    List (String × ChatMessage) :=
  insertAll (insertAll [] existing) incoming

/-- The last element of `l` whose `_id` is `k` (the binding a JS `Map` holds
after inserting all of `l` in order). -/
def lastWith (l : List ChatMessage) (k : String) : Option ChatMessage :=
  match l with
  | [] => none
  | x :: xs =>
    match lastWith xs k with
    | some v => some v
    | none => if x._id = k then some x else none

/-! ## The stable ascending sort

`mergeMessagesById` ends with
`Array.from(messageMap.values()).sort((a, b) => a.createdAtMs - b.createdAtMs)`.
`Array.prototype.sort` is required by the language standard to be stable, and
the numeric comparator orders ascending by `createdAtMs`; a stable ascending
sort of a list is unique, so it is modelled by a stable insertion sort. -/

/-- Insert `a` into `l` directly before the first element whose timestamp is
not smaller; on a sorted `l` this keeps elements with equal timestamps in
their existing order ahead of later-inserted ones. -/
def insertSorted (a : ChatMessage) : List ChatMessage → List ChatMessage
  | [] => [a]
  | x :: xs =>
    if x.createdAtMs < a.createdAtMs then x :: insertSorted a xs
    else a :: x :: xs

/-- The stable ascending-by-`createdAtMs` sort. -/
def sortByMs (l : List ChatMessage) : List ChatMessage :=
  l.foldr insertSorted []

/-- `mergeMessagesById`, from `src/hooks/useChatMessages.ts` lines 44-62:
insert `existing` then `incoming` into an id-keyed map (so an incoming message
overwrites an existing one with the same id), then sort the values ascending
by `createdAtMs`. -/
def mergeMessagesById (existing incoming : List ChatMessage) : List ChatMessage :=
  sortByMs ((messageMapOf existing incoming).map Prod.snd)

/-! ## The synchronization core (`useChatMessages`)

The hook state is the five `useState` cells (`src/hooks/useChatMessages.ts`
lines 73-77).  Each async operation is split at its suspension point into a
start step (the synchronous code before `await`) and a settle step (the code
run when the promise resolves or rejects), with the outcome passed in as an
`Except`.  Thrown values are modelled by `Thrown`. -/

/-- State of the hook: the five `useState` cells of `useChatMessages`. -/
structure HookState where
  messages : List ChatMessage
  loadStatus : AsyncStatus
  loadError : Option ApiError
  sendStatus : AsyncStatus
  sendError : Option ApiError
deriving DecidableEq, Repr

/-- Initial hook state (`src/hooks/useChatMessages.ts` lines 73-77):
empty collection, load already `loading`, send `idle`. -/
def initialState : HookState :=
  { messages := []
    loadStatus := AsyncStatus.loading
    loadError := none
    sendStatus := AsyncStatus.idle
    sendError := none }

/-- A thrown JavaScript value as discriminated by the catch blocks:
an `ApiError`, some other `Error` (only its `message` is consulted),
or a non-`Error` value. -/
inductive Thrown where
  | api (e : ApiError)
  | err (message : String)
  | other
deriving DecidableEq, Repr

/-- The load catch block's wrap (`src/hooks/useChatMessages.ts` lines 123-130):
an `ApiError` passes through; anything else becomes an `ApiError` with status 0
and the thrown `Error`'s message, or a fixed message for non-`Error` values. -/
def wrapLoadError : Thrown → ApiError
  | Thrown.api e => e
  | Thrown.err m => { message := m, statusCode := 0, response := none, endpoint := none }
  | Thrown.other =>
    { message := "Failed to load messages", statusCode := 0, response := none, endpoint := none }

/-- The send catch block's wrap (`src/hooks/useChatMessages.ts` lines 169-174). -/
def wrapSendError : Thrown → ApiError
  | Thrown.api e => e
  | Thrown.err m => { message := m, statusCode := 0, response := none, endpoint := none }
  | Thrown.other =>
    { message := "Failed to send message", statusCode := 0, response := none, endpoint := none }

/-- `fetchAndNormalizeMessages` (`src/hooks/useChatMessages.ts` lines 90-98)
applied to an already-fetched wire payload: normalize every message and merge
into an empty collection. -/
def fetchAndNormalizeMessages (fetched : List Message) : List ChatMessage :=
  mergeMessagesById [] (fetched.map normalizeMessage)

/-- The synchronous prefix of `loadMessages`
(`src/hooks/useChatMessages.ts` lines 112-113): set `loading`, clear the error. -/
def loadStart (s : HookState) : HookState :=
  { s with loadStatus := AsyncStatus.loading, loadError := none }

/-- The continuation of `loadMessages` after the fetch settles
(`src/hooks/useChatMessages.ts` lines 115-135).  `guard` is the value of
`!shouldUpdate || shouldUpdate()` at that moment; when it is false no state
is written. -/
def loadSettle (guard : Bool) (result : Except Thrown (List Message))
    (s : HookState) : HookState :=
  if guard then
    match result with
    | Except.ok fetched =>
      { s with messages := fetchAndNormalizeMessages fetched
               loadStatus := AsyncStatus.success }
    | Except.error t =>
      { s with loadError := some (wrapLoadError t)
               loadStatus := AsyncStatus.error }
  else s

/-- The settle step of `reload` (`src/hooks/useChatMessages.ts` lines 143-145):
`reload` calls `loadMessages()` with no `shouldUpdate` callback, so the guard
`!shouldUpdate || shouldUpdate()` is always true and every reload commits. -/
def reloadSettle (result : Except Thrown (List Message)) (s : HookState) : HookState :=
  loadSettle true result s

/-- The continuation of the mount effect after the fetch settles
(`src/hooks/useChatMessages.ts` lines 186-209); `ignore` is the cleanup flag
set on unmount.  Unlike `loadSettle`, success also clears `loadError`. -/
def effectSettle (ignore : Bool) (result : Except Thrown (List Message))
    (s : HookState) : HookState :=
  if ignore then s
  else
    match result with
    | Except.ok fetched =>
      { s with messages := fetchAndNormalizeMessages fetched
               loadStatus := AsyncStatus.success
               loadError := none }
    | Except.error t =>
      { s with loadError := some (wrapLoadError t)
               loadStatus := AsyncStatus.error }

/-- The synchronous prefix of `sendMessage`
(`src/hooks/useChatMessages.ts` lines 158-159). -/
def sendStart (s : HookState) : HookState :=
  { s with sendStatus := AsyncStatus.loading, sendError := none }

/-- The continuation of `sendMessage` after `createMessage` settles
(`src/hooks/useChatMessages.ts` lines 161-178): on success merge the single
normalized message into the previous collection and mark success; on failure
record the wrapped error and mark error, leaving the collection untouched. -/
def sendSettle (result : Except Thrown Message) (s : HookState) : HookState :=
  match result with
  | Except.ok newMessage =>
    { s with messages := mergeMessagesById s.messages [normalizeMessage newMessage]
             sendStatus := AsyncStatus.success }
  | Except.error t =>
    { s with sendError := some (wrapSendError t)
             sendStatus := AsyncStatus.error }

/-! ## The transport (`src/api/api-error.ts`, `src/api/api-client.ts`)

A fetch `Response` is modelled by its observable pieces: status, status line
text, the `content-type` header, and the outcomes of the two body reads the
code may perform.  `jsonBody` is the outcome of `response.json()` seen as an
`ApiErrorResponse` (`none` when parsing throws); `textBody` is the outcome of
`response.text()` (`Except.error m` when the read throws an `Error` with
message `m`). -/

/-- Equality of `Except` values is decidable componentwise. -/
instance exceptDecidableEq {e a : Type} [DecidableEq e] [DecidableEq a] :
    DecidableEq (Except e a) := fun x y =>
  match x, y with
  | Except.ok v, Except.ok w =>
    if h : v = w then Decidable.isTrue (by rw [h])
    else Decidable.isFalse (by intro hc; cases hc; exact h rfl)
  | Except.ok _, Except.error _ => Decidable.isFalse (by intro hc; cases hc)
  | Except.error _, Except.ok _ => Decidable.isFalse (by intro hc; cases hc)
  | Except.error v, Except.error w =>
    if h : v = w then Decidable.isTrue (by rw [h])
    else Decidable.isFalse (by intro hc; cases hc; exact h rfl)

/-- Observable shape of a fetch `Response`. -/
structure Response where
  status : Nat
  statusText : String
  contentType : Option String
  jsonBody : Option ApiErrorResponse
  textBody : Except String String
deriving DecidableEq, Repr

/-- `Response.ok`: status in the inclusive range 200-299. -/
def Response.isOk (r : Response) : Bool :=
  decide (200 ≤ r.status) && decide (r.status ≤ 299)

/-- The `contentType?.includes('application/json')` check
(`src/api/api-error.ts` line 169, `src/api/api-client.ts` lines 230-231):
an absent header is falsy. -/
def contentTypeIncludesJson (r : Response) : Bool :=
  match r.contentType with
  | some ct => decide ("application/json".data <:+: ct.data)
  | none => false

/-- The message-extraction step of `createApiErrorFromResponse`
(`src/api/api-error.ts` lines 198-202): a field-error array is joined with
`", "`, a string is taken as is, and an absent envelope falls back to
`response.statusText` (a fetch status text is never nullish, so the
`?? 'Unknown error'` alternative never fires). -/
def extractErrorMessage (errorData : Option ApiErrorResponse) (statusText : String) :
    String :=
  match errorData with
  | some d =>
    match d.message with
    | ErrorMessageBody.fields l => String.intercalate ", " (l.map FieldError.message)
    | ErrorMessageBody.str s => s
  | none => statusText

/-- `createApiErrorFromResponse`, from `src/api/api-error.ts` lines 157-205.
When the content type indicates JSON the body is parsed as JSON; if that
throws, the response text is used as the message (falling back to the status
text when the text is empty or unreadable).  When the content type does not
indicate JSON, no body is read and `errorData` stays absent. -/
def createApiErrorFromResponse (response : Response) (endpoint : Option String) :
    ApiError :=
  let errorData : Option ApiErrorResponse :=
    if contentTypeIncludesJson response then
      match response.jsonBody with
      | some d => some d
      | none =>
        match response.textBody with
        | Except.ok text =>
          some { message := ErrorMessageBody.str
                   (if text ≠ "" then text
                    else if response.statusText ≠ "" then response.statusText
                    else "Unknown error")
                 statusCode := response.status }
        | Except.error _ =>
          some { message := ErrorMessageBody.str
                   (if response.statusText ≠ "" then response.statusText
                    else "Unknown error")
                 statusCode := response.status }
    else none
  { message := extractErrorMessage errorData response.statusText
    statusCode := response.status
    response := errorData
    endpoint := endpoint }

/-- Model of the platform `String.prototype.trim`: strip leading and
trailing whitespace. -/
def jsTrim (s : String) : String :=
  String.mk (((s.data.dropWhile Char.isWhitespace).reverse.dropWhile
    Char.isWhitespace).reverse)

/-- `ApiClient.request`, from `src/api/api-client.ts` lines 209-297, applied
to the outcome of the `fetch` call.  `parseJson` is the platform `JSON.parse`
specialised at the payload type (`Except.error m` when it throws a
`SyntaxError` with message `m`); `fetchResult` is `Except.error m` when
`fetch` itself rejects with an `Error` carrying message `m`.  A resolved
`none` payload is the `undefined` the source returns for 204, non-JSON, or
blank bodies. -/
def request {T : Type} (parseJson : String → Except String T)
    (fetchResult : Except String Response) (url : String) :
    Except ApiError (Option T) :=
  match fetchResult with
  | Except.error m =>
    Except.error { message := m, statusCode := 0, response := none, endpoint := some url }
  | Except.ok response =>
    if !response.isOk then
      Except.error (createApiErrorFromResponse response (some url))
    else if response.status == 204 || !contentTypeIncludesJson response then
      Except.ok none
    else
      match response.textBody with
      | Except.error m =>
        Except.error { message := m, statusCode := 0, response := none, endpoint := some url }
      | Except.ok text =>
        if jsTrim text = "" then Except.ok none
        else
          match parseJson text with
          | Except.ok v => Except.ok (some v)
          | Except.error m =>
            Except.error
              { message := m, statusCode := 0, response := none, endpoint := some url }

/-- `ApiClient.getMessages`, from `src/api/api-client.ts` lines 359-367:
delegates to `request` at payload type `ReadonlyArray<Message>`. -/
def getMessages (parseJson : String → Except String (List Message))
    (fetchResult : Except String Response) (url : String) :
    Except ApiError (Option (List Message)) :=
  request parseJson fetchResult url

/-! ## Configuration (`src/config/env.ts`) -/

/-- The two environment variables the configuration consumes; `none` models a
variable absent from `import.meta.env`. -/
structure EnvVars where
  baseUrlVar : Option String
  tokenVar : Option String
deriving DecidableEq, Repr

/-- The configuration value shape. -/
structure ApiConfig where
  baseUrl : String
  token : String
deriving DecidableEq, Repr

/-- `apiConfig`, from `src/config/env.ts` lines 14-17: each field falls back
to a built-in development default when the variable is nullish (`??`). -/
def apiConfig (env : EnvVars) : ApiConfig :=
  { baseUrl := env.baseUrlVar.getD "http://localhost:3000/api/v1"
    token := env.tokenVar.getD "super-secret-doodle-token" }

/-- `validateApiConfig`, from `src/config/env.ts` lines 29-43, with the
platform `new URL` constructor abstracted as the success predicate
`isValidUrl`.  A thrown configuration error is `Except.error` with the thrown
message; `!value` on a string is true exactly for the empty string. -/
def validateApiConfig (isValidUrl : String → Bool) (cfg : ApiConfig) :
    Except String Unit :=
  if cfg.baseUrl = "" then Except.error "VITE_API_BASE_URL is required but not set"
  else if cfg.token = "" then Except.error "VITE_API_TOKEN is required but not set"
  else if isValidUrl cfg.baseUrl then Except.ok ()
  else Except.error ("Invalid API base URL: " ++ cfg.baseUrl)

/-! ## Notation helpers for the statements -/

/-- The identities of a message list, in order. -/
def idsOf (l : List ChatMessage) : List String :=
  l.map (fun m => m._id)

/-- The sublist of messages carrying the timestamp `t`, in order.  Two lists
that agree on `filterMs` for every `t` order equal-timestamp messages the same
way, which is the stability statement for the sort. -/
def filterMs (t : Int) (l : List ChatMessage) : List ChatMessage :=
  l.filter (fun x => decide (x.createdAtMs = t))

/-! ## Lemmas about the stable sort -/

theorem insertSorted_perm (a : ChatMessage) (l : List ChatMessage) :
    List.Perm (insertSorted a l) (a :: l) := by
  induction l with
  | nil => simp [insertSorted]
  | cons x xs ih =>
    by_cases h : x.createdAtMs < a.createdAtMs
    · simp only [insertSorted, if_pos h]
      exact (List.Perm.cons x ih).trans (List.Perm.swap a x xs)
    · simp [insertSorted, if_neg h]

theorem sortByMs_perm (l : List ChatMessage) : List.Perm (sortByMs l) l := by
  induction l with
  | nil => simp [sortByMs]
  | cons x xs ih =>
    have h1 : sortByMs (x :: xs) = insertSorted x (sortByMs xs) := rfl
    rw [h1]
    exact (insertSorted_perm x (sortByMs xs)).trans (List.Perm.cons x ih)

theorem insertSorted_pairwise (a : ChatMessage) (l : List ChatMessage)
    (h : l.Pairwise (fun p q => p.createdAtMs ≤ q.createdAtMs)) :
    (insertSorted a l).Pairwise (fun p q => p.createdAtMs ≤ q.createdAtMs) := by
  induction l with
  | nil => simp [insertSorted]
  | cons x xs ih =>
    rw [List.pairwise_cons] at h
    by_cases hlt : x.createdAtMs < a.createdAtMs
    · simp only [insertSorted, if_pos hlt]
      rw [List.pairwise_cons]
      refine ⟨?_, ih h.2⟩
      intro y hy
      rcases List.mem_cons.mp ((insertSorted_perm a xs).mem_iff.mp hy) with hya | hyxs
      · exact hya ▸ le_of_lt hlt
      · exact h.1 y hyxs
    · simp only [insertSorted, if_neg hlt]
      have hax : a.createdAtMs ≤ x.createdAtMs := le_of_not_lt hlt
      rw [List.pairwise_cons]
      refine ⟨?_, List.pairwise_cons.mpr h⟩
      intro y hy
      rcases List.mem_cons.mp hy with hyx | hyxs
      · exact hyx ▸ hax
      · exact le_trans hax (h.1 y hyxs)

theorem sortByMs_sorted (l : List ChatMessage) :
    (sortByMs l).Pairwise (fun p q => p.createdAtMs ≤ q.createdAtMs) := by
  induction l with
  | nil => simp [sortByMs]
  | cons x xs ih => exact insertSorted_pairwise x (sortByMs xs) ih

theorem filterMs_insertSorted (t : Int) (a : ChatMessage) (l : List ChatMessage) :
    filterMs t (insertSorted a l)
      = if a.createdAtMs = t then a :: filterMs t l else filterMs t l := by
  induction l with
  | nil => by_cases h : a.createdAtMs = t <;> simp [insertSorted, filterMs, h]
  | cons x xs ih =>
    by_cases hlt : x.createdAtMs < a.createdAtMs
    · simp only [insertSorted, if_pos hlt]
      by_cases hat : a.createdAtMs = t
      · have hxt : ¬ x.createdAtMs = t := by omega
        simp [filterMs, hxt, hat] at ih ⊢
        exact ih
      · by_cases hxt : x.createdAtMs = t <;> simp [filterMs, hxt, hat] at ih ⊢ <;> exact ih
    · simp only [insertSorted, if_neg hlt]
      by_cases hat : a.createdAtMs = t <;> simp [filterMs, hat]

theorem filterMs_sortByMs (t : Int) (l : List ChatMessage) :
    filterMs t (sortByMs l) = filterMs t l := by
  induction l with
  | nil => rfl
  | cons x xs ih =>
    have h1 : sortByMs (x :: xs) = insertSorted x (sortByMs xs) := rfl
    rw [h1, filterMs_insertSorted]
    by_cases hxt : x.createdAtMs = t <;> simp [filterMs, hxt] at ih ⊢ <;> exact ih

theorem sortByMs_of_sorted (l : List ChatMessage)
    (h : l.Pairwise (fun p q => p.createdAtMs ≤ q.createdAtMs)) :
    sortByMs l = l := by
  induction l with
  | nil => rfl
  | cons x xs ih =>
    rw [List.pairwise_cons] at h
    have h1 : sortByMs (x :: xs) = insertSorted x (sortByMs xs) := rfl
    rw [h1, ih h.2]
    cases xs with
    | nil => rfl
    | cons y ys =>
      have hxy : ¬ y.createdAtMs < x.createdAtMs :=
        not_lt_of_le (h.1 y (List.mem_cons_self y ys))
      simp [insertSorted, hxy]

/-! ## Lemmas about the insertion-ordered map -/

theorem fst_mapSet_fun (k : String) (v : ChatMessage) (p : String × ChatMessage) :
    (if p.1 = k then (k, v) else p).1 = p.1 := by
  by_cases h : p.1 = k <;> simp [h]

theorem mapKeys_mapSet (m : List (String × ChatMessage)) (k : String) (v : ChatMessage) :
    mapKeys (mapSet m k v) = if k ∈ mapKeys m then mapKeys m else mapKeys m ++ [k] := by
  unfold mapSet
  by_cases h : k ∈ mapKeys m
  · rw [if_pos h, if_pos h]
    unfold mapKeys
    rw [List.map_map]
    exact List.map_congr_left (fun p _ => fst_mapSet_fun k v p)
  · rw [if_neg h, if_neg h]
    unfold mapKeys
    simp

theorem mem_mapKeys_mapSet (m : List (String × ChatMessage)) (k k' : String)
    (v : ChatMessage) :
    k' ∈ mapKeys (mapSet m k v) ↔ k' ∈ mapKeys m ∨ k' = k := by
  rw [mapKeys_mapSet]
  by_cases h : k ∈ mapKeys m
  · rw [if_pos h]
    constructor
    · exact Or.inl
    · rintro (hk | rfl)
      · exact hk
      · exact h
  · rw [if_neg h]
    simp

theorem nodup_mapKeys_mapSet (m : List (String × ChatMessage)) (k : String)
    (v : ChatMessage) (h : (mapKeys m).Nodup) : (mapKeys (mapSet m k v)).Nodup := by
  rw [mapKeys_mapSet]
  by_cases hk : k ∈ mapKeys m
  · rwa [if_pos hk]
  · rw [if_neg hk]
    simpa [List.nodup_append] using ⟨h, hk⟩

theorem mapLookup_mapSet_self (m : List (String × ChatMessage)) (k : String)
    (v : ChatMessage) : mapLookup (mapSet m k v) k = some v := by
  by_cases h : k ∈ mapKeys m
  · unfold mapSet
    rw [if_pos h]
    unfold mapLookup
    rw [List.find?_map]
    have hcong : ((fun p : String × ChatMessage => decide (p.1 = k)) ∘
        fun p => if p.1 = k then (k, v) else p) = fun p => decide (p.1 = k) := by
      funext p
      simp only [Function.comp_apply]
      rw [fst_mapSet_fun]
    rw [hcong]
    obtain ⟨q, hq, hqk⟩ := List.mem_map.mp (show k ∈ m.map Prod.fst from h)
    rcases hmem : List.find? (fun p : String × ChatMessage => decide (p.1 = k)) m with _ | p0
    · exact absurd hqk (by simpa using List.find?_eq_none.mp hmem q hq)
    · have hp0 : p0.1 = k := by simpa using List.find?_some hmem
      simp [hp0]
  · unfold mapSet
    rw [if_neg h]
    unfold mapLookup
    rw [List.find?_append]
    have hnone : List.find? (fun p : String × ChatMessage => decide (p.1 = k)) m = none := by
      rw [List.find?_eq_none]
      intro p hp hpk
      exact h (List.mem_map.mpr ⟨p, hp, by simpa using hpk⟩)
    rw [hnone]
    simp [List.find?]

theorem mapLookup_mapSet_ne (m : List (String × ChatMessage)) (k k' : String)
    (v : ChatMessage) (h : k' ≠ k) : mapLookup (mapSet m k v) k' = mapLookup m k' := by
  by_cases hk : k ∈ mapKeys m
  · unfold mapSet
    rw [if_pos hk]
    unfold mapLookup
    rw [List.find?_map]
    have hcong : ((fun p : String × ChatMessage => decide (p.1 = k')) ∘
        fun p => if p.1 = k then (k, v) else p) = fun p => decide (p.1 = k') := by
      funext p
      simp only [Function.comp_apply]
      rw [fst_mapSet_fun]
    rw [hcong]
    rcases hmem : List.find? (fun p : String × ChatMessage => decide (p.1 = k')) m with _ | p0
    · rfl
    · have hp0 : p0.1 = k' := by simpa using List.find?_some hmem
      have hfix : (if p0.1 = k then (k, v) else p0) = p0 := by
        rw [if_neg]
        rw [hp0]
        exact h
      simp [hfix]
  · unfold mapSet
    rw [if_neg hk]
    unfold mapLookup
    rw [List.find?_append]
    have hone : List.find? (fun p : String × ChatMessage => decide (p.1 = k')) [(k, v)]
        = none := by
      simp [List.find?, Ne.symm h]
    rw [hone]
    simp

theorem mem_mapSet (m : List (String × ChatMessage)) (k : String) (v : ChatMessage)
    (p : String × ChatMessage) (hp : p ∈ mapSet m k v) : p ∈ m ∨ p = (k, v) := by
  unfold mapSet at hp
  by_cases h : k ∈ mapKeys m
  · rw [if_pos h] at hp
    rcases List.mem_map.mp hp with ⟨q, hq, hqe⟩
    by_cases hqk : q.1 = k
    · right
      rw [← hqe, if_pos hqk]
    · left
      rwa [← hqe, if_neg hqk]
  · rw [if_neg h, List.mem_append] at hp
    rcases hp with hp | hp
    · exact Or.inl hp
    · exact Or.inr (by simpa using hp)

/-! ## Lemmas about `insertAll` and `lastWith` -/

theorem insertAll_nil (m : List (String × ChatMessage)) : insertAll m [] = m := rfl

theorem insertAll_cons (m : List (String × ChatMessage)) (x : ChatMessage)
    (xs : List ChatMessage) :
    insertAll m (x :: xs) = insertAll (mapSet m x._id x) xs := rfl

theorem lastWith_nil (k : String) : lastWith [] k = none := rfl

theorem lastWith_cons (x : ChatMessage) (xs : List ChatMessage) (k : String) :
    lastWith (x :: xs) k
      = match lastWith xs k with
        | some v => some v
        | none => if x._id = k then some x else none := rfl

theorem mapLookup_insertAll (l : List ChatMessage) :
    ∀ (m : List (String × ChatMessage)) (k : String),
      mapLookup (insertAll m l) k
        = match lastWith l k with
          | some v => some v
          | none => mapLookup m k := by
  induction l with
  | nil => intro m k; rfl
  | cons x xs ih =>
    intro m k
    rw [insertAll_cons, ih (mapSet m x._id x) k, lastWith_cons]
    rcases lastWith xs k with _ | v
    · by_cases hk : x._id = k
      · subst hk
        simp [mapLookup_mapSet_self]
      · simp only [if_neg hk]
        exact mapLookup_mapSet_ne m x._id k x (fun he => hk he.symm)
    · rfl

theorem mem_mapKeys_insertAll (l : List ChatMessage) :
    ∀ (m : List (String × ChatMessage)) (k : String),
      k ∈ mapKeys (insertAll m l) ↔ k ∈ mapKeys m ∨ k ∈ idsOf l := by
  induction l with
  | nil => intro m k; simp [insertAll_nil, idsOf]
  | cons x xs ih =>
    intro m k
    rw [insertAll_cons, ih (mapSet m x._id x) k]
    rw [mem_mapKeys_mapSet]
    simp only [idsOf, List.map_cons, List.mem_cons]
    constructor
    · rintro ((hm | hx) | hxs)
      · exact Or.inl hm
      · exact Or.inr (Or.inl hx)
      · exact Or.inr (Or.inr (by simpa [idsOf] using hxs))
    · rintro (hm | hx | hxs)
      · exact Or.inl (Or.inl hm)
      · exact Or.inl (Or.inr hx)
      · exact Or.inr (by simpa [idsOf] using hxs)

theorem nodup_mapKeys_insertAll (l : List ChatMessage) :
    ∀ (m : List (String × ChatMessage)), (mapKeys m).Nodup →
      (mapKeys (insertAll m l)).Nodup := by
  induction l with
  | nil => intro m h; exact h
  | cons x xs ih =>
    intro m h
    rw [insertAll_cons]
    exact ih (mapSet m x._id x) (nodup_mapKeys_mapSet m x._id x h)

theorem mem_insertAll (l : List ChatMessage) :
    ∀ (m : List (String × ChatMessage)) (p : String × ChatMessage),
      p ∈ insertAll m l → p ∈ m ∨ p.2 ∈ l := by
  induction l with
  | nil => intro m p hp; exact Or.inl hp
  | cons x xs ih =>
    intro m p hp
    rw [insertAll_cons] at hp
    rcases ih (mapSet m x._id x) p hp with hm | hxs
    · rcases mem_mapSet m x._id x p hm with hm2 | rfl
      · exact Or.inl hm2
      · exact Or.inr (List.mem_cons_self x xs)
    · exact Or.inr (List.mem_cons_of_mem x hxs)

theorem snd_id_insertAll (l : List ChatMessage) :
    ∀ (m : List (String × ChatMessage)), (∀ p ∈ m, p.2._id = p.1) →
      ∀ p ∈ insertAll m l, p.2._id = p.1 := by
  induction l with
  | nil => intro m h; exact h
  | cons x xs ih =>
    intro m h
    rw [insertAll_cons]
    refine ih (mapSet m x._id x) ?_
    intro p hp
    rcases mem_mapSet m x._id x p hp with hm | rfl
    · exact h p hm
    · rfl

theorem lastWith_append (A B : List ChatMessage) (k : String) :
    lastWith (A ++ B) k
      = match lastWith B k with
        | some v => some v
        | none => lastWith A k := by
  induction A with
  | nil =>
    simp only [List.nil_append, lastWith_nil]
    rcases lastWith B k with _ | v <;> rfl
  | cons a A ih =>
    rw [List.cons_append, lastWith_cons, ih, lastWith_cons]
    rcases lastWith B k with _ | v
    · rfl
    · rfl

theorem lastWith_eq_none_iff (l : List ChatMessage) (k : String) :
    lastWith l k = none ↔ k ∉ idsOf l := by
  induction l with
  | nil => simp [lastWith_nil, idsOf]
  | cons x xs ih =>
    rw [lastWith_cons]
    simp only [idsOf, List.map_cons, List.mem_cons]
    rcases hxs : lastWith xs k with _ | v
    · have hk : k ∉ idsOf xs := ih.mp hxs
      by_cases hx : x._id = k
      · simp only [if_pos hx]
        constructor
        · intro hc
          cases hc
        · intro hc
          exact absurd (Or.inl hx.symm) hc
      · simp only [if_neg hx]
        constructor
        · intro _
          rintro (hc | hc)
          · exact hx hc.symm
          · exact hk (by simpa [idsOf] using hc)
        · intro _
          trivial
    · have hne : lastWith xs k ≠ none := by
        rw [hxs]
        simp
      have hk : k ∈ idsOf xs := by
        by_contra hkn
        exact hne (ih.mpr hkn)
      constructor
      · intro hc
        cases hc
      · intro hc
        exact absurd (Or.inr (by simpa [idsOf] using hk)) hc

theorem lastWith_mem (l : List ChatMessage) (k : String) (v : ChatMessage)
    (h : lastWith l k = some v) : v ∈ l ∧ v._id = k := by
  induction l with
  | nil => simp [lastWith_nil] at h
  | cons x xs ih =>
    rw [lastWith_cons] at h
    rcases hxs : lastWith xs k with _ | w
    · rw [hxs] at h
      by_cases hx : x._id = k
      · rw [if_pos hx] at h
        have hxv := Option.some.inj h
        subst hxv
        exact ⟨List.mem_cons_self x xs, hx⟩
      · rw [if_neg hx] at h
        cases h
    · rw [hxs] at h
      have hwv := Option.some.inj h
      subst hwv
      rcases ih hxs with ⟨hw1, hw2⟩
      exact ⟨List.mem_cons_of_mem x hw1, hw2⟩

theorem lastWith_self_of_nodup (l : List ChatMessage) (hn : (idsOf l).Nodup)
    (a : ChatMessage) (ha : a ∈ l) : lastWith l a._id = some a := by
  induction l with
  | nil => cases ha
  | cons x xs ih =>
    simp only [idsOf, List.map_cons, List.nodup_cons] at hn
    rcases List.mem_cons.mp ha with rfl | haxs
    · have hnone : lastWith xs a._id = none :=
        (lastWith_eq_none_iff xs a._id).mpr (by simpa [idsOf] using hn.1)
      rw [lastWith_cons, hnone]
      simp
    · have := ih (by simpa [idsOf] using hn.2) haxs
      rw [lastWith_cons, this]

/-! ## Characterization of `messageMapOf` and `mergeMessagesById` -/

theorem mapLookup_eq_snd_of_mem (m : List (String × ChatMessage))
    (hn : (mapKeys m).Nodup) (p : String × ChatMessage) (hp : p ∈ m) :
    mapLookup m p.1 = some p.2 := by
  induction m with
  | nil => cases hp
  | cons q m ih =>
    simp only [mapKeys, List.map_cons, List.nodup_cons] at hn
    rcases List.mem_cons.mp hp with rfl | hpm
    · unfold mapLookup
      rw [List.find?_cons_of_pos m (by simp)]
      rfl
    · have hq : ¬ q.1 = p.1 := by
        intro he
        exact hn.1 (he ▸ List.mem_map_of_mem Prod.fst hpm)
      unfold mapLookup
      rw [List.find?_cons_of_neg m (by simpa using hq)]
      exact ih (by simpa [mapKeys] using hn.2) hpm

theorem mapKeys_messageMapOf (E I : List ChatMessage) (k : String) :
    k ∈ mapKeys (messageMapOf E I) ↔ k ∈ idsOf E ∨ k ∈ idsOf I := by
  unfold messageMapOf
  rw [mem_mapKeys_insertAll, mem_mapKeys_insertAll]
  simp [mapKeys]

theorem nodup_mapKeys_messageMapOf (E I : List ChatMessage) :
    (mapKeys (messageMapOf E I)).Nodup := by
  unfold messageMapOf
  exact nodup_mapKeys_insertAll I _ (nodup_mapKeys_insertAll E [] (by simp [mapKeys]))

theorem mapLookup_messageMapOf (E I : List ChatMessage) (k : String) :
    mapLookup (messageMapOf E I) k = lastWith (E ++ I) k := by
  unfold messageMapOf
  rw [mapLookup_insertAll, lastWith_append, mapLookup_insertAll]
  rcases lastWith I k with _ | v
  · rcases lastWith E k with _ | w
    · rfl
    · rfl
  · rfl

theorem snd_id_messageMapOf (E I : List ChatMessage) :
    ∀ p ∈ messageMapOf E I, p.2._id = p.1 := by
  unfold messageMapOf
  exact snd_id_insertAll I _ (snd_id_insertAll E [] (by intro p hp; cases hp))

theorem idsOf_values_messageMapOf (E I : List ChatMessage) :
    idsOf ((messageMapOf E I).map Prod.snd) = mapKeys (messageMapOf E I) := by
  unfold idsOf mapKeys
  rw [List.map_map]
  exact List.map_congr_left (fun p hp => snd_id_messageMapOf E I p hp)

theorem merge_perm (E I : List ChatMessage) :
    List.Perm (mergeMessagesById E I) ((messageMapOf E I).map Prod.snd) :=
  sortByMs_perm _

theorem idsOf_merge_perm (E I : List ChatMessage) :
    List.Perm (idsOf (mergeMessagesById E I)) (mapKeys (messageMapOf E I)) := by
  have h := (merge_perm E I).map (fun m => m._id)
  rw [show List.map (fun m => m._id) ((messageMapOf E I).map Prod.snd)
      = idsOf ((messageMapOf E I).map Prod.snd) from rfl, idsOf_values_messageMapOf] at h
  exact h

theorem merge_ids_mem (E I : List ChatMessage) (i : String) :
    i ∈ idsOf (mergeMessagesById E I) ↔ i ∈ idsOf E ∨ i ∈ idsOf I := by
  rw [(idsOf_merge_perm E I).mem_iff]
  exact mapKeys_messageMapOf E I i

theorem merge_ids_nodup (E I : List ChatMessage) :
    (idsOf (mergeMessagesById E I)).Nodup :=
  (idsOf_merge_perm E I).nodup_iff.mpr (nodup_mapKeys_messageMapOf E I)

theorem merge_lastWith (E I : List ChatMessage) (m : ChatMessage)
    (hm : m ∈ mergeMessagesById E I) : lastWith (E ++ I) m._id = some m := by
  have hmv : m ∈ (messageMapOf E I).map Prod.snd := (merge_perm E I).mem_iff.mp hm
  rcases List.mem_map.mp hmv with ⟨p, hp, rfl⟩
  have hid : p.2._id = p.1 := snd_id_messageMapOf E I p hp
  rw [hid, ← mapLookup_messageMapOf]
  exact mapLookup_eq_snd_of_mem _ (nodup_mapKeys_messageMapOf E I) p hp

theorem merge_mem (E I : List ChatMessage) (m : ChatMessage)
    (hm : m ∈ mergeMessagesById E I) : m ∈ E ∨ m ∈ I := by
  have h := (lastWith_mem _ _ _ (merge_lastWith E I m hm)).1
  exact List.mem_append.mp h

theorem merge_sorted (E I : List ChatMessage) :
    (mergeMessagesById E I).Pairwise (fun p q => p.createdAtMs ≤ q.createdAtMs) :=
  sortByMs_sorted _

theorem merge_stable (t : Int) (E I : List ChatMessage) :
    filterMs t (mergeMessagesById E I)
      = filterMs t ((messageMapOf E I).map Prod.snd) :=
  filterMs_sortByMs t _

theorem merge_length (E I : List ChatMessage) :
    (mergeMessagesById E I).length = (idsOf (E ++ I)).dedup.length := by
  have h1 : (mergeMessagesById E I).length = (idsOf (mergeMessagesById E I)).length := by
    simp [idsOf]
  rw [h1, ← List.toFinset_card_of_nodup (merge_ids_nodup E I),
    ← List.toFinset_card_of_nodup (List.nodup_dedup (idsOf (E ++ I)))]
  congr 1
  ext a
  simp only [List.mem_toFinset, List.mem_dedup]
  rw [merge_ids_mem]
  simp [idsOf]

theorem mem_merge_left (E I : List ChatMessage) (hE : (idsOf E).Nodup)
    (x : ChatMessage) (hx : x ∈ E) (hni : x._id ∉ idsOf I) :
    x ∈ mergeMessagesById E I := by
  have hidmem : x._id ∈ idsOf (mergeMessagesById E I) :=
    (merge_ids_mem E I x._id).mpr (Or.inl (List.mem_map_of_mem (fun m => m._id) hx))
  rcases List.mem_map.mp hidmem with ⟨y, hy, hyid⟩
  have h1 : lastWith (E ++ I) x._id = some y := by
    rw [← hyid]
    exact merge_lastWith E I y hy
  have h2 : lastWith (E ++ I) x._id = some x := by
    rw [lastWith_append, (lastWith_eq_none_iff I x._id).mpr hni]
    exact lastWith_self_of_nodup E hE x hx
  rw [h1] at h2
  have := Option.some.inj h2
  subst this
  exact hy

/-! ## Algebraic properties of the merge -/

theorem insertAll_fresh (l : List ChatMessage) :
    ∀ (m : List (String × ChatMessage)), (∀ a ∈ l, a._id ∉ mapKeys m) →
      (idsOf l).Nodup → insertAll m l = m ++ l.map (fun a => (a._id, a)) := by
  induction l with
  | nil =>
    intro m _ _
    simp [insertAll_nil]
  | cons a xs ih =>
    intro m hfresh hnd
    rw [insertAll_cons]
    have hna : a._id ∉ mapKeys m := hfresh a (List.mem_cons_self a xs)
    have hset : mapSet m a._id a = m ++ [(a._id, a)] := by
      unfold mapSet
      rw [if_neg hna]
    simp only [idsOf, List.map_cons, List.nodup_cons] at hnd
    have hfresh2 : ∀ b ∈ xs, b._id ∉ mapKeys (m ++ [(a._id, a)]) := by
      intro b hb
      have h1 : b._id ∉ mapKeys m := hfresh b (List.mem_cons_of_mem a hb)
      have h2 : b._id ≠ a._id := by
        intro he
        exact hnd.1 (he ▸ List.mem_map_of_mem (fun x => x._id) hb)
      simp only [mapKeys, List.map_append, List.mem_append]
      rintro (hc | hc)
      · exact h1 hc
      · exact h2 (by simpa using hc)
    rw [hset, ih (m ++ [(a._id, a)]) hfresh2 (by simpa [idsOf] using hnd.2)]
    simp

theorem insertAll_keysSubset (l : List ChatMessage) :
    ∀ (m : List (String × ChatMessage)), (∀ a ∈ l, a._id ∈ mapKeys m) →
      insertAll m l
        = m.map (fun p =>
            match lastWith l p.1 with
            | some v => (p.1, v)
            | none => p) := by
  induction l with
  | nil =>
    intro m _
    simp [insertAll_nil, lastWith_nil]
  | cons a xs ih =>
    intro m hsub
    rw [insertAll_cons]
    have ha : a._id ∈ mapKeys m := hsub a (List.mem_cons_self a xs)
    have hset : mapSet m a._id a
        = m.map (fun p => if p.1 = a._id then (a._id, a) else p) := by
      unfold mapSet
      rw [if_pos ha]
    have hkeys : mapKeys (m.map (fun p => if p.1 = a._id then (a._id, a) else p))
        = mapKeys m := by
      unfold mapKeys
      rw [List.map_map]
      exact List.map_congr_left (fun p _ => fst_mapSet_fun a._id a p)
    have hsub2 : ∀ b ∈ xs,
        b._id ∈ mapKeys (m.map (fun p => if p.1 = a._id then (a._id, a) else p)) := by
      intro b hb
      rw [hkeys]
      exact hsub b (List.mem_cons_of_mem a hb)
    rw [hset, ih _ hsub2, List.map_map]
    apply List.map_congr_left
    intro p _
    simp only [Function.comp]
    have hfst : (if p.1 = a._id then (a._id, a) else p).1 = p.1 :=
      fst_mapSet_fun a._id a p
    rw [hfst, lastWith_cons]
    rcases hxs : lastWith xs p.1 with _ | v
    · by_cases hpa : p.1 = a._id
      · rw [if_pos hpa, if_pos hpa.symm]
        rw [hpa]
      · rw [if_neg hpa, if_neg (fun he => hpa he.symm)]
    · rfl

theorem pairMap_values (l : List ChatMessage) :
    (l.map (fun a => (a._id, a))).map Prod.snd = l := by
  rw [List.map_map]
  exact List.map_id' l

theorem messageMapOf_nil_right (A : List ChatMessage) (hA : (idsOf A).Nodup) :
    messageMapOf A [] = A.map (fun a => (a._id, a)) := by
  unfold messageMapOf
  rw [insertAll_nil, insertAll_fresh A [] (by intro a _ hc; cases hc) hA]
  rfl

theorem merge_nil_right (A : List ChatMessage) (hA : (idsOf A).Nodup) :
    mergeMessagesById A [] = sortByMs A := by
  show sortByMs ((messageMapOf A []).map Prod.snd) = sortByMs A
  rw [messageMapOf_nil_right A hA, pairMap_values]

theorem merge_nil_left (B : List ChatMessage) (hB : (idsOf B).Nodup) :
    mergeMessagesById [] B = sortByMs B := by
  show sortByMs ((messageMapOf [] B).map Prod.snd) = sortByMs B
  unfold messageMapOf
  rw [insertAll_nil, insertAll_fresh B [] (by intro a _ hc; cases hc) hB]
  rw [List.nil_append, pairMap_values]

theorem merge_idem (A B : List ChatMessage) :
    mergeMessagesById (mergeMessagesById A B) B = mergeMessagesById A B := by
  set C := mergeMessagesById A B with hC
  have hCn : (idsOf C).Nodup := merge_ids_nodup A B
  have h1 : insertAll [] C = C.map (fun a => (a._id, a)) := by
    rw [insertAll_fresh C [] (by intro a _ hc; cases hc) hCn]
    rfl
  have hsub : ∀ b ∈ B, b._id ∈ mapKeys (C.map (fun a => (a._id, a))) := by
    intro b hb
    have : b._id ∈ idsOf C := (merge_ids_mem A B b._id).mpr
      (Or.inr (List.mem_map_of_mem (fun m => m._id) hb))
    unfold mapKeys
    rw [List.map_map]
    simpa [idsOf] using this
  have h2 : messageMapOf C B = C.map (fun a => (a._id, a)) := by
    unfold messageMapOf
    rw [h1, insertAll_keysSubset B _ hsub, List.map_map]
    apply List.map_congr_left
    intro c hc
    simp only [Function.comp_apply]
    show (match lastWith B c._id with
          | some v => (c._id, v)
          | none => (c._id, c)) = (c._id, c)
    rcases hlw : lastWith B c._id with _ | v
    · rfl
    · have hcl : lastWith (A ++ B) c._id = some c := merge_lastWith A B c hc
      rw [lastWith_append, hlw] at hcl
      have := Option.some.inj hcl
      subst this
      rfl
  show sortByMs ((messageMapOf C B).map Prod.snd) = C
  rw [h2, pairMap_values]
  exact sortByMs_of_sorted C (merge_sorted A B)

/-! ## Concrete fixtures used by the claim theorems -/

/-- The spec scenario's pre-existing wire message (id "1"). -/
def wireMsg1 : Message :=
  { _id := "1", message := "hi", author := "A", createdAt := "2024-01-01T00:00:01Z" }

/-- The spec scenario's server-returned wire message (id "2"). -/
def wireMsg2 : Message :=
  { _id := "2", message := "hello", author := "You", createdAt := "2024-01-01T00:00:02Z" }

/-- The spec example's wire message with the midnight timestamp. -/
def exampleWire : Message :=
  { _id := "1", message := "hi", author := "A", createdAt := "2024-01-01T00:00:00Z" }

/-- Two display messages sharing the identity "1". -/
def dupA : ChatMessage :=
  { _id := "1", message := "first", author := "A",
    createdAt := "2024-01-01T00:00:01Z", createdAtMs := 1704067201000 }

/-- A later display message that also carries the identity "1". -/
def dupB : ChatMessage :=
  { _id := "1", message := "second", author := "A",
    createdAt := "2024-01-01T00:00:02Z", createdAtMs := 1704067202000 }

/-- The status-0 `ApiError` the transport builds when no response was
received (`src/api/api-client.ts` lines 284-295). -/
def netError (msg url : String) : ApiError :=
  { message := msg, statusCode := 0, response := none, endpoint := some url }

/-! ## Claim theorems -/

/-- C1: for every pair of display-message lists, `mergeMessagesById` returns a
list whose identities are exactly the union of the input identities, with no
identity twice and length equal to the number of distinct identities; the
entry kept for each identity is the last one in merge order
(`existing ++ incoming`, so an incoming entry replaces an existing one of the
same identity); and the result is sorted non-decreasing by `createdAtMs`, with
the order of equal-timestamp entries inherited unchanged from the merge
(map-insertion) order. -/
theorem C1_mergeMessagesById_spec (existing incoming : List ChatMessage) :
    (∀ i, i ∈ idsOf (mergeMessagesById existing incoming)
        ↔ i ∈ idsOf existing ∨ i ∈ idsOf incoming)
  ∧ (idsOf (mergeMessagesById existing incoming)).Nodup
  ∧ (mergeMessagesById existing incoming).length
      = (idsOf (existing ++ incoming)).dedup.length
  ∧ (∀ m ∈ mergeMessagesById existing incoming,
      lastWith (existing ++ incoming) m._id = some m)
  ∧ (mergeMessagesById existing incoming).Pairwise
      (fun p q => p.createdAtMs ≤ q.createdAtMs)
  ∧ (∀ t, filterMs t (mergeMessagesById existing incoming)
      = filterMs t ((messageMapOf existing incoming).map Prod.snd)) :=
  ⟨merge_ids_mem existing incoming, merge_ids_nodup existing incoming,
    merge_length existing incoming, merge_lastWith existing incoming,
    merge_sorted existing incoming, fun t => merge_stable t existing incoming⟩

/-- C2 evidence: two overlapping reloads; the second (most recently initiated)
settles first with the id-"2" payload, then the stale first reload settles
with the id-"1" payload.  Because `reload` passes no `shouldUpdate` callback
to `loadMessages`, the guard is always true, the stale result is committed,
and the final collection is the first reload's payload instead of the
second's — contradicting the claim that the stale outcome is discarded. -/
theorem C2_reload_race_commits_stale :
    (reloadSettle (Except.ok [wireMsg1])
        (reloadSettle (Except.ok [wireMsg2])
          (loadStart (loadStart initialState)))).messages
      = [normalizeMessage wireMsg1]
  ∧ (reloadSettle (Except.ok [wireMsg1])
        (reloadSettle (Except.ok [wireMsg2])
          (loadStart (loadStart initialState)))).messages
      ≠ [normalizeMessage wireMsg2] := by
  exact ⟨by decide, by decide⟩

/-- C3: a failed load never touches the held collection (for any guard value,
and for the mount effect as well); a committed failure ends the load lifecycle
in the error state with the wrapped typed error recorded; and a transport
failure with no response surfaces from `request` as an `ApiError` with
status 0, so the initial load failing that way leaves the collection empty,
the load status `error`, and a status-0 error recorded. -/
theorem C3_load_failure_preserves_collection (s : HookState) (t : Thrown)
    (g : Bool) (parse : String → Except String (List Message))
    (netMsg url : String) :
    (loadSettle g (Except.error t) s).messages = s.messages
  ∧ (loadSettle true (Except.error t) s).loadStatus = AsyncStatus.error
  ∧ (loadSettle true (Except.error t) s).loadError = some (wrapLoadError t)
  ∧ (effectSettle false (Except.error t) s).messages = s.messages
  ∧ request parse (Except.error netMsg) url = Except.error (netError netMsg url)
  ∧ (effectSettle false (Except.error (Thrown.api (netError netMsg url)))
        initialState).messages = []
  ∧ (effectSettle false (Except.error (Thrown.api (netError netMsg url)))
        initialState).loadStatus = AsyncStatus.error
  ∧ (effectSettle false (Except.error (Thrown.api (netError netMsg url)))
        initialState).loadError = some (netError netMsg url)
  ∧ (netError netMsg url).statusCode = 0 := by
  refine ⟨?_, rfl, rfl, rfl, rfl, rfl, rfl, rfl, rfl⟩
  cases g <;> rfl

/-- Every message produced by `fetchAndNormalizeMessages` carries the parse
of its own `createdAt`. -/
theorem fetchAndNormalize_inv (fetched : List Message) :
    ∀ m ∈ fetchAndNormalizeMessages fetched,
      m.createdAtMs = jsDateParseMs m.createdAt := by
  intro m hm
  rcases merge_mem _ _ m hm with hc | hc
  · cases hc
  · rcases List.mem_map.mp hc with ⟨w, _, rfl⟩
    rfl

/-- C4: `sendMessage` first sets the send state to loading and clears the send
error; on success it merges the single normalized returned message into the
existing collection — preserving every held message of a different identity,
a merge rather than a replace — and marks success; on failure it leaves the
collection untouched and records the wrapped typed error in the error state. -/
theorem C4_sendMessage_spec (s : HookState) (m : Message) (t : Thrown)
    (h : (idsOf s.messages).Nodup) :
    sendStart s = { s with sendStatus := AsyncStatus.loading, sendError := none }
  ∧ (sendSettle (Except.ok m) s).messages
      = mergeMessagesById s.messages [normalizeMessage m]
  ∧ (sendSettle (Except.ok m) s).sendStatus = AsyncStatus.success
  ∧ (∀ x ∈ s.messages, x._id ≠ m._id → x ∈ (sendSettle (Except.ok m) s).messages)
  ∧ (sendSettle (Except.error t) s).messages = s.messages
  ∧ (sendSettle (Except.error t) s).sendStatus = AsyncStatus.error
  ∧ (sendSettle (Except.error t) s).sendError = some (wrapSendError t) := by
  refine ⟨rfl, rfl, rfl, ?_, rfl, rfl, rfl⟩
  intro x hx hne
  have hni : x._id ∉ idsOf [normalizeMessage m] := by
    simp only [idsOf, List.map_cons, List.map_nil, List.mem_singleton]
    exact hne
  exact mem_merge_left s.messages [normalizeMessage m] h x hx hni

/-- C4 witness: the theorem applied to the empty initial collection, the spec
scenario's wire message and a non-`Error` thrown value. -/
theorem C4_sendMessage_spec_witness :
    (idsOf initialState.messages).Nodup
  ∧ (sendSettle (Except.ok wireMsg2) initialState).sendStatus = AsyncStatus.success
  ∧ (sendSettle (Except.error Thrown.other) initialState).messages
      = initialState.messages :=
  ⟨by decide,
    (C4_sendMessage_spec initialState wireMsg2 Thrown.other (by decide)).2.2.1,
    (C4_sendMessage_spec initialState wireMsg2 Thrown.other (by decide)).2.2.2.2.1⟩

/-- The spec scenario's held state: collection `[normalize wireMsg1]`, load
already succeeded. -/
def heldState1 : HookState :=
  { initialState with
    messages := [normalizeMessage wireMsg1]
    loadStatus := AsyncStatus.success }

/-- C5: a successful send leaves the load lifecycle's fields untouched for
every prior state, and in the spec scenario — collection holding id "1", the
server returning id "2" with a later timestamp — the resulting collection is
exactly both ids in ascending time order with the send state success and the
load state exactly as before. -/
theorem C5_send_success_frame (s : HookState) (m : Message) :
    (sendSettle (Except.ok m) s).loadStatus = s.loadStatus
  ∧ (sendSettle (Except.ok m) s).loadError = s.loadError
  ∧ idsOf (sendSettle (Except.ok wireMsg2) heldState1).messages = ["1", "2"]
  ∧ ((sendSettle (Except.ok wireMsg2) heldState1).messages).Pairwise
      (fun p q => p.createdAtMs ≤ q.createdAtMs)
  ∧ (sendSettle (Except.ok wireMsg2) heldState1).sendStatus = AsyncStatus.success
  ∧ (sendSettle (Except.ok wireMsg2) heldState1).loadStatus = AsyncStatus.success
  ∧ (sendSettle (Except.ok wireMsg2) heldState1).loadError = none := by
  exact ⟨rfl, rfl, by decide, by decide, rfl, rfl, rfl⟩

/-- The invariant of claim C7: every held display message's numeric timestamp
is the parse of its own ISO string. -/
def MessagesInv (s : HookState) : Prop :=
  ∀ m ∈ s.messages, m.createdAtMs = jsDateParseMs m.createdAt

/-- C7: `normalizeMessage` computes `createdAtMs` as the parse of `createdAt`
(on the example timestamp it is that instant's epoch milliseconds), the
invariant holds initially, and every operation of the hook — load start and
settle, the mount effect, send start and settle — preserves it, so the two
fields never diverge in the held collection. -/
theorem C7_createdAtMs_invariant (s : HookState) (g ig : Bool)
    (lr : Except Thrown (List Message)) (sr : Except Thrown Message)
    (w : Message) :
    (normalizeMessage exampleWire).createdAtMs = 1704067200000
  ∧ (normalizeMessage w).createdAtMs = jsDateParseMs w.createdAt
  ∧ MessagesInv initialState
  ∧ (MessagesInv s → MessagesInv (loadStart s))
  ∧ (MessagesInv s → MessagesInv (loadSettle g lr s))
  ∧ (MessagesInv s → MessagesInv (effectSettle ig lr s))
  ∧ (MessagesInv s → MessagesInv (sendStart s))
  ∧ (MessagesInv s → MessagesInv (sendSettle sr s)) := by
  refine ⟨by decide, rfl, ?_, ?_, ?_, ?_, ?_, ?_⟩
  · intro m hm
    cases hm
  · intro h
    exact h
  · intro h
    cases g with
    | false => exact h
    | true =>
      cases lr with
      | ok fetched => exact fetchAndNormalize_inv fetched
      | error t => exact h
  · intro h
    cases ig with
    | false =>
      cases lr with
      | ok fetched => exact fetchAndNormalize_inv fetched
      | error t => exact h
    | true => exact h
  · intro h
    exact h
  · intro h
    cases sr with
    | ok w2 =>
      intro m hm
      rcases merge_mem _ _ m hm with hc | hc
      · exact h m hc
      · rcases List.mem_cons.mp hc with rfl | hc2
        · rfl
        · cases hc2
    | error t => exact h

/-- C7 witness: the invariant-preservation implications applied at the initial
state, a committed successful load and a successful send of the example
message. -/
theorem C7_createdAtMs_invariant_witness :
    MessagesInv (loadSettle true (Except.ok [exampleWire]) initialState)
  ∧ MessagesInv (sendSettle (Except.ok exampleWire) initialState)
  ∧ MessagesInv (effectSettle false (Except.ok [exampleWire]) initialState)
  ∧ MessagesInv (loadStart initialState)
  ∧ MessagesInv (sendStart initialState) := by
  refine ⟨?_, ?_, ?_, ?_, ?_⟩
  · exact (C7_createdAtMs_invariant initialState true false
      (Except.ok [exampleWire]) (Except.ok exampleWire)
      exampleWire).2.2.2.2.1 (by intro m hm; cases hm)
  · exact (C7_createdAtMs_invariant initialState true false
      (Except.ok [exampleWire]) (Except.ok exampleWire)
      exampleWire).2.2.2.2.2.2.2 (by intro m hm; cases hm)
  · exact (C7_createdAtMs_invariant initialState true false
      (Except.ok [exampleWire]) (Except.ok exampleWire)
      exampleWire).2.2.2.2.2.1 (by intro m hm; cases hm)
  · exact (C7_createdAtMs_invariant initialState true false
      (Except.ok [exampleWire]) (Except.ok exampleWire)
      exampleWire).2.2.2.1 (by intro m hm; cases hm)
  · exact (C7_createdAtMs_invariant initialState true false
      (Except.ok [exampleWire]) (Except.ok exampleWire)
      exampleWire).2.2.2.2.2.2.1 (by intro m hm; cases hm)

/-! ## Fixtures for the transport and configuration claims -/

/-- A plain-text 500 response whose text body differs from its status line. -/
def plainTextErrorResponse : Response :=
  { status := 500, statusText := "Internal Server Error",
    contentType := some "text/plain", jsonBody := none,
    textBody := Except.ok "the server exploded" }

/-- The 400 body's field-error envelope. -/
def fieldErrorBody : ApiErrorResponse :=
  { message := ErrorMessageBody.fields [{ field := "message", message := "too long" }]
    statusCode := 400 }

/-- A 400 JSON response carrying a field-error list. -/
def jsonFieldErrorResponse : Response :=
  { status := 400, statusText := "Bad Request",
    contentType := some "application/json; charset=utf-8",
    jsonBody := some fieldErrorBody,
    textBody := Except.ok "unused" }

/-- A JSON-labelled response whose body fails to parse as JSON but reads as
text. -/
def brokenJsonResponse : Response :=
  { status := 502, statusText := "Bad Gateway",
    contentType := some "application/json", jsonBody := none,
    textBody := Except.ok "upstream timeout" }

/-- A JSON-labelled response whose body can be neither parsed nor read. -/
def unreadableJsonResponse : Response :=
  { status := 503, statusText := "Service Unavailable",
    contentType := some "application/json", jsonBody := none,
    textBody := Except.error "body stream already read" }

/-- A successful response with a non-JSON content type. -/
def htmlOkResponse : Response :=
  { status := 200, statusText := "OK", contentType := some "text/html",
    jsonBody := none, textBody := Except.ok "<p>hello</p>" }

/-- A successful JSON-labelled response with a whitespace-only body. -/
def blankJsonOkResponse : Response :=
  { status := 200, statusText := "OK", contentType := some "application/json",
    jsonBody := none, textBody := Except.ok "  " }

/-- A `JSON.parse` model that always fails, for the fixtures that never
reach parsing. -/
def failParse : String → Except String (List Message) :=
  fun _ => Except.error "SyntaxError"

/-- The built-in development default configuration. -/
def defaultApiConfig : ApiConfig :=
  { baseUrl := "http://localhost:3000/api/v1", token := "super-secret-doodle-token" }

/-- An environment with both variables absent. -/
def emptyEnv : EnvVars :=
  { baseUrlVar := none, tokenVar := none }

/-- C6 counter-evidence: on a non-2xx response whose content type does not
indicate JSON, the source never reads the response text — `errorData` stays
absent and the message falls back directly to the status line text, not to
the body text as the claim states. -/
theorem C6_non_json_message_ignores_text :
    contentTypeIncludesJson plainTextErrorResponse = false
  ∧ plainTextErrorResponse.textBody = Except.ok "the server exploded"
  ∧ (createApiErrorFromResponse plainTextErrorResponse none).statusCode = 500
  ∧ (createApiErrorFromResponse plainTextErrorResponse none).message
      = "Internal Server Error"
  ∧ (createApiErrorFromResponse plainTextErrorResponse none).message
      ≠ "the server exploded" := by
  exact ⟨by decide, rfl, by decide, by decide, by decide⟩

/-- C6 amended: for every non-2xx response the transport raises the typed
error built by `createApiErrorFromResponse`, whose status equals the response
status; the message comes from the body parsed as JSON when the content type
indicates JSON; when the content type does not indicate JSON the message is
the status line text (the body is not consulted); and when JSON parsing fails
the message falls back to the response text, and to the status line text when
that text is empty or unreadable. -/
theorem C6_createApiErrorFromResponse_spec (r : Response) (ep : Option String)
    (parse : String → Except String (List Message)) (url : String) :
    (createApiErrorFromResponse r ep).statusCode = r.status
  ∧ (contentTypeIncludesJson r = false →
      (createApiErrorFromResponse r ep).message = r.statusText)
  ∧ (∀ d, contentTypeIncludesJson r = true → r.jsonBody = some d →
      (createApiErrorFromResponse r ep).message
        = extractErrorMessage (some d) r.statusText)
  ∧ (∀ text, contentTypeIncludesJson r = true → r.jsonBody = none →
      r.textBody = Except.ok text → text ≠ "" →
      (createApiErrorFromResponse r ep).message = text)
  ∧ (∀ em, contentTypeIncludesJson r = true → r.jsonBody = none →
      (r.textBody = Except.ok "" ∨ r.textBody = Except.error em) →
      r.statusText ≠ "" →
      (createApiErrorFromResponse r ep).message = r.statusText)
  ∧ (r.isOk = false →
      request parse (Except.ok r) url
        = Except.error (createApiErrorFromResponse r (some url))) := by
  refine ⟨rfl, ?_, ?_, ?_, ?_, ?_⟩
  · intro hct
    simp [createApiErrorFromResponse, hct, extractErrorMessage]
  · intro d hct hjson
    simp [createApiErrorFromResponse, hct, hjson]
  · intro text hct hjson htext hne
    simp [createApiErrorFromResponse, hct, hjson, htext, extractErrorMessage, hne]
  · intro em hct hjson hor hst
    rcases hor with hok | herr
    · simp [createApiErrorFromResponse, hct, hjson, hok, extractErrorMessage, hst]
    · simp [createApiErrorFromResponse, hct, hjson, herr, extractErrorMessage, hst]
  · intro hok
    simp [request, hok]

/-- C6 witness: the amended theorem applied to a plain-text response, a
JSON-parse failure with readable text, one with unreadable text, and a
field-error JSON response (also exercising the `request` raise on non-2xx). -/
theorem C6_createApiErrorFromResponse_spec_witness :
    (createApiErrorFromResponse plainTextErrorResponse none).message
      = plainTextErrorResponse.statusText
  ∧ (createApiErrorFromResponse brokenJsonResponse none).message
      = "upstream timeout"
  ∧ (createApiErrorFromResponse unreadableJsonResponse none).message
      = unreadableJsonResponse.statusText
  ∧ request failParse (Except.ok jsonFieldErrorResponse) "u"
      = Except.error (createApiErrorFromResponse jsonFieldErrorResponse (some "u"))
  ∧ (createApiErrorFromResponse jsonFieldErrorResponse none).message
      = extractErrorMessage jsonFieldErrorResponse.jsonBody
          jsonFieldErrorResponse.statusText := by
  refine ⟨?_, ?_, ?_, ?_, ?_⟩
  · exact (C6_createApiErrorFromResponse_spec plainTextErrorResponse none
      (fun _ => Except.error "e") "u").2.1 (by decide)
  · exact (C6_createApiErrorFromResponse_spec brokenJsonResponse none
      (fun _ => Except.error "e") "u").2.2.2.1 "upstream timeout"
      (by decide) rfl rfl (by decide)
  · exact (C6_createApiErrorFromResponse_spec unreadableJsonResponse none
      (fun _ => Except.error "e") "u").2.2.2.2.1 "body stream already read"
      (by decide) rfl (Or.inr rfl) (by decide)
  · exact (C6_createApiErrorFromResponse_spec jsonFieldErrorResponse none
      failParse "u").2.2.2.2.2 (by decide)
  · exact (C6_createApiErrorFromResponse_spec jsonFieldErrorResponse none
      (fun _ => Except.error "e") "u").2.2.1 fieldErrorBody (by decide) rfl

/-- C8 counter-evidence: on a list with a repeated identity, `merge(A, [])`
deduplicates (one entry survives) while `sort(A)` keeps both entries, so the
claimed equation `merge(A, []) = sort(A)` fails for such a list. -/
theorem C8_merge_not_sort_with_duplicate_ids :
    mergeMessagesById [dupA, dupB] [] = [dupB]
  ∧ sortByMs [dupA, dupB] = [dupA, dupB]
  ∧ mergeMessagesById [dupA, dupB] [] ≠ sortByMs [dupA, dupB] := by
  exact ⟨by decide, by decide, by decide⟩

/-- C8 amended: `merge(A, []) = sort(A)` and `merge([], B) = sort(B)` hold
whenever the respective input carries no duplicate identities (as every
already-held collection and normalized server batch with unique ids does),
and re-applying the same incoming batch is always a no-op:
`merge(merge(A, B), B) = merge(A, B)` for all lists. -/
theorem C8_merge_algebra (A B : List ChatMessage) :
    ((idsOf A).Nodup → mergeMessagesById A [] = sortByMs A)
  ∧ ((idsOf B).Nodup → mergeMessagesById [] B = sortByMs B)
  ∧ mergeMessagesById (mergeMessagesById A B) B = mergeMessagesById A B :=
  ⟨merge_nil_right A, merge_nil_left B, merge_idem A B⟩

/-- C8 witness: the amended theorem applied to singleton lists and to the
duplicate-free pair. -/
theorem C8_merge_algebra_witness :
    (idsOf [dupA]).Nodup
  ∧ mergeMessagesById [dupA] [] = sortByMs [dupA]
  ∧ mergeMessagesById [] [dupB] = sortByMs [dupB]
  ∧ mergeMessagesById (mergeMessagesById [dupA] [dupB]) [dupB]
      = mergeMessagesById [dupA] [dupB] := by
  refine ⟨by decide, ?_, ?_, ?_⟩
  · exact (C8_merge_algebra [dupA] []).1 (by decide)
  · exact (C8_merge_algebra [dupA] [dupB]).2.1 (by decide)
  · exact (C8_merge_algebra [dupA] [dupB]).2.2

/-- C9 counter-evidence: with both environment variables absent the built-in
development defaults are substituted, validation succeeds, and startup
proceeds — refuting the claim that absence makes validation throw.  (The
platform URL parser accepts the default base URL
`http://localhost:3000/api/v1`; the validity predicate used here agrees with
it on that input.) -/
theorem C9_absent_env_passes_validation :
    apiConfig emptyEnv = defaultApiConfig
  ∧ validateApiConfig (fun _ => true) (apiConfig emptyEnv) = Except.ok () :=
  ⟨rfl, rfl⟩

/-- C9 amended: validation throws exactly when the configured base URL or
token is the empty string or the base URL fails URL parsing; an absent
environment variable is replaced by its built-in development default before
validation, so absence alone never fails startup. -/
theorem C9_validateApiConfig_spec (isValidUrl : String → Bool) (env : EnvVars) :
    (env.baseUrlVar = none → (apiConfig env).baseUrl = defaultApiConfig.baseUrl)
  ∧ (env.tokenVar = none → (apiConfig env).token = defaultApiConfig.token)
  ∧ (validateApiConfig isValidUrl (apiConfig env) = Except.ok ()
      ↔ (apiConfig env).baseUrl ≠ "" ∧ (apiConfig env).token ≠ ""
        ∧ isValidUrl (apiConfig env).baseUrl = true) := by
  refine ⟨?_, ?_, ?_⟩
  · intro h
    simp [apiConfig, h, defaultApiConfig]
  · intro h
    simp [apiConfig, h, defaultApiConfig]
  · unfold validateApiConfig
    constructor
    · intro hok
      by_cases h1 : (apiConfig env).baseUrl = ""
      · rw [if_pos h1] at hok
        cases hok
      · rw [if_neg h1] at hok
        by_cases h2 : (apiConfig env).token = ""
        · rw [if_pos h2] at hok
          cases hok
        · rw [if_neg h2] at hok
          by_cases h3 : isValidUrl (apiConfig env).baseUrl = true
          · exact ⟨h1, h2, h3⟩
          · rw [if_neg h3] at hok
            cases hok
    · rintro ⟨h1, h2, h3⟩
      rw [if_neg h1, if_neg h2, if_pos h3]

/-- C9 witness: the amended theorem applied to the absent-variable
environment with a validity predicate true on the default base URL. -/
theorem C9_validateApiConfig_spec_witness :
    (apiConfig emptyEnv).baseUrl = defaultApiConfig.baseUrl
  ∧ (apiConfig emptyEnv).token = defaultApiConfig.token
  ∧ validateApiConfig (fun s => decide (s = defaultApiConfig.baseUrl))
      (apiConfig emptyEnv) = Except.ok () := by
  refine ⟨?_, ?_, ?_⟩
  · exact (C9_validateApiConfig_spec (fun _ => true) emptyEnv).1 rfl
  · exact (C9_validateApiConfig_spec (fun _ => true) emptyEnv).2.1 rfl
  · exact ((C9_validateApiConfig_spec
      (fun s => decide (s = defaultApiConfig.baseUrl)) emptyEnv).2.2).mpr
      ⟨by decide, by decide, by decide⟩

/-- C10: every successful (2xx) response whose content type does not indicate
JSON, or whose body text is empty or whitespace-only, makes `request` resolve
with the `undefined` payload (`none`) rather than throw — and therefore
`getMessages` can resolve to `undefined` instead of a message array, on any
such response, not only on a 204. -/
theorem C10_request_resolves_undefined
    (parse : String → Except String (List Message)) (r : Response)
    (url : String) (hok : r.isOk = true)
    (hbody : contentTypeIncludesJson r = false
      ∨ ∃ text, r.textBody = Except.ok text ∧ jsTrim text = "") :
    request parse (Except.ok r) url = Except.ok none
  ∧ getMessages parse (Except.ok r) url = Except.ok none := by
  have hmain : request parse (Except.ok r) url = Except.ok none := by
    rcases hbody with hct | ⟨text, htext, htrim⟩
    · simp [request, hok, hct]
    · by_cases h204 : r.status == 204
      · simp [request, hok, h204]
      · by_cases hct : contentTypeIncludesJson r
        · simp [request, hok, h204, hct, htext, htrim]
        · simp [request, hok, hct]
  exact ⟨hmain, hmain⟩

/-- C10 witness: the theorem applied to a 200 `text/html` response and to a
200 JSON-labelled response whose body is whitespace only. -/
theorem C10_request_resolves_undefined_witness :
    htmlOkResponse.status = 200
  ∧ getMessages failParse (Except.ok htmlOkResponse) "u" = Except.ok none
  ∧ blankJsonOkResponse.status = 200
  ∧ getMessages failParse (Except.ok blankJsonOkResponse) "u" = Except.ok none := by
  refine ⟨rfl, ?_, rfl, ?_⟩
  · exact (C10_request_resolves_undefined failParse
      htmlOkResponse "u" (by decide) (Or.inl (by decide))).2
  · exact (C10_request_resolves_undefined failParse
      blankJsonOkResponse "u" (by decide)
      (Or.inr ⟨"  ", rfl, by decide⟩)).2

end DoodleChat
